import Mathlib

/-
Verification of the AWS Lambda image-compression handler
(src/lambda/image_compression.py) against its specification.

The handler iterates the S3 notification records of one event, skips
records whose bucket differs from the configured source bucket, and for
each remaining record: downloads the object, decodes it with Pillow,
shrinks it to fit a 1024 by 1024 bounding box while preserving the aspect
ratio, re-encodes it in the detected format with optimize and quality 70,
uploads the result under the key "resized-" followed by the basename of
the source key, and inserts one metadata item into DynamoDB. External
collaborators (S3, DynamoDB, the Pillow codec, uuid4 and the clock) are
modelled as an explicit environment; the operations the handler performs
on the stores are recorded in a trace so that claims about side effects
can be stated.
-/

namespace ImageCompression

/-- Failure taxonomy of the handler: decode failures from Pillow, read
failures from the source store, write failures from the destination store
or the metadata store, and schema rejections by the metadata store.
None of these are caught in the handler body. -/
inductive LambdaError where
  | decodeError
  | storeReadError
  | storeWriteError
  | schemaError
  deriving DecidableEq, Repr

/-- Module-level constant SOURCE_BUCKET of the source file. -/
def SOURCE_BUCKET : String := "source-image-azoz"

/-- Module-level constant DEST_BUCKET of the source file. -/
def DEST_BUCKET : String := "resized-image-azoz"

/-- Raw object bytes: either bytes that decode to an image of a given
format and dimensions, or undecodable bytes. -/
inductive Bytes where
  | encoded (format : String) (width height : ℕ)
  | raw (data : List ℕ)
  deriving DecidableEq, Repr

/-- An in-memory bitmap as produced by Image.open: pixel dimensions plus
the format identifier detected by the decoder. -/
structure Img where
  width : ℕ
  height : ℕ
  format : String
  deriving DecidableEq, Repr

/-- Image.open: succeeds exactly on decodable bytes; a decoded bitmap has
positive dimensions. Undecodable bytes raise, modelled as none. -/
def decode : Bytes → Option Img
  | .encoded f w h => if 0 < w ∧ 0 < h then some ⟨w, h, f⟩ else none
  | .raw _ => none

/-- The rounding helper of PIL Image.thumbnail: chooses between the floor
and the ceiling of the exact value by the supplied key (the floor on a
tie, as Python min does) and clamps the result to at least 1. -/
def round_aspect (number : ℚ) (key : ℤ → ℚ) : ℤ :=
  max (if key ⌊number⌋ ≤ key ⌈number⌉ then ⌊number⌋ else ⌈number⌉) 1

/-- The bounding-box size computation of PIL Image.thumbnail, in exact
rational arithmetic: if the image already fits the requested box it is
left unchanged; otherwise the larger side is set to the corresponding box
side and the other side is rounded from the exact aspect-preserving
value. -/
def thumbnailSize : ℕ × ℕ → ℕ → ℕ → ℕ × ℕ
  | (x, y), width, height =>
    if x ≥ width ∧ y ≥ height then (width, height)
    else
      let aspect : ℚ := (width : ℚ) / (height : ℚ)
      if (x : ℚ) / (y : ℚ) ≥ aspect then
        let x2 := round_aspect ((y : ℚ) * aspect) (fun n => |aspect - (n : ℚ) / (y : ℚ)|)
        (x2.toNat, y)
      else
        let y2 := round_aspect ((x : ℚ) / aspect)
          (fun n => if n = 0 then 0 else |aspect - (x : ℚ) / (n : ℚ)|)
        (x, y2.toNat)

/-- image.thumbnail acting on a bitmap: resizes in place, preserving the
format attribute set by Image.open. -/
def thumbnailImg (size : ℕ × ℕ) (img : Img) : Img :=
  let p := thumbnailSize size img.width img.height
  { img with width := p.1, height := p.2 }

/-- The result of image.save into a buffer: the re-encoded bytes are
characterised by the format passed to save, the bitmap dimensions, and
the fixed encoding parameters. -/
structure SavedImage where
  format : String
  width : ℕ
  height : ℕ
  optimize : Bool
  quality : ℕ
  deriving DecidableEq, Repr

/-- image.save with format equal to image.format, optimize True and
quality 70, as in line 35 of the source. -/
def savedOf (img : Img) : SavedImage :=
  { format := img.format, width := img.width, height := img.height,
    optimize := true, quality := 70 }

/-- The response of s3.get_object: body bytes, ContentType and
ContentLength. -/
structure S3Object where
  body : Bytes
  contentType : String
  contentLength : ℕ
  deriving DecidableEq, Repr

/-- The item inserted into the metadata table, with the exact fields of
lines 48 to 59 of the source. -/
structure MetadataItem where
  imageId : String
  sourceBucket : String
  sourceKey : String
  destBucket : String
  destKey : String
  contentType : String
  sizeOriginal : ℕ
  resizedAt : String
  deriving DecidableEq, Repr

/-- One s3.put_object call: destination bucket, key, body and
ContentType. -/
structure PutOp where
  bucket : String
  key : String
  body : SavedImage
  contentType : String
  deriving DecidableEq, Repr

/-- The store operations performed so far by one invocation: source
reads, destination writes and metadata inserts, each appended once the
operation has succeeded. -/
structure Trace where
  gets : List (String × String)
  puts : List PutOp
  inserts : List MetadataItem
  deriving DecidableEq, Repr

/-- The trace at the start of an invocation. -/
def Trace.empty : Trace := ⟨[], [], []⟩

/-- The external collaborators: the source store read, the outcomes of
the destination write and of the metadata insert, and the oracles for
uuid4 and datetime.utcnow, indexed by how many items were completed
before the call. -/
structure Env where
  getObject : String → String → Except LambdaError S3Object
  putOutcome : String → String → Except LambdaError Unit
  insertOutcome : MetadataItem → Except LambdaError Unit
  freshId : ℕ → String
  now : ℕ → String

/-- One record of the event: the bucket name and object key read from
record s3 bucket name and record s3 object key. -/
structure NotificationRecord where
  bucket : String
  key : String
  deriving DecidableEq, Repr

/-- The invocation event: the list of records. -/
structure Event where
  records : List NotificationRecord
  deriving DecidableEq, Repr

/-- The value returned by the handler on success. -/
structure Status where
  status : String
  deriving DecidableEq, Repr

/-- Accumulator for the basename scan: the characters of the current path
segment, reset at every slash. -/
def lastSegAux : List Char → List Char → List Char
  | cur, [] => cur
  | cur, c :: cs => if c = '/' then lastSegAux [] cs else lastSegAux (cur ++ [c]) cs

/-- os.path.basename for slash-separated keys: the part of the string
after the last slash. -/
def basename (s : String) : String :=
  String.mk (lastSegAux [] s.data)

/-- The body of the for loop of lambda_handler for one record: skip when
the bucket is not SOURCE_BUCKET, otherwise get_object, Image.open,
thumbnail, save, put_object, put_item, in that order, stopping at the
first failing step. Returns the updated trace, the updated oracle index,
and the error if one was raised. -/
def processRecord (env : Env) (st : Trace) (n : ℕ) (r : NotificationRecord) :
    Trace × ℕ × Option LambdaError :=
  if r.bucket ≠ SOURCE_BUCKET then
    (st, n, none)
  else
    match env.getObject r.bucket r.key with
    | .error e => (st, n, some e)
    | .ok obj =>
      let st1 : Trace := { st with gets := st.gets ++ [(r.bucket, r.key)] }
      match decode obj.body with
      | none => (st1, n, some .decodeError)
      | some image =>
        let resized := thumbnailImg (1024, 1024) image
        let outputImage := savedOf resized
        let output_key := "resized-" ++ basename r.key
        match env.putOutcome DEST_BUCKET output_key with
        | .error e => (st1, n, some e)
        | .ok _ =>
          let st2 : Trace :=
            { st1 with puts := st1.puts ++
                [⟨DEST_BUCKET, output_key, outputImage, obj.contentType⟩] }
          let item : MetadataItem :=
            { imageId := env.freshId n,
              sourceBucket := r.bucket,
              sourceKey := r.key,
              destBucket := DEST_BUCKET,
              destKey := output_key,
              contentType := obj.contentType,
              sizeOriginal := obj.contentLength,
              resizedAt := env.now n }
          match env.insertOutcome item with
          | .error e => (st2, n, some e)
          | .ok _ => ({ st2 with inserts := st2.inserts ++ [item] }, n + 1, none)

/-- The for loop of lambda_handler: processes the records in order and
stops at the first record that raises, returning the trace accumulated so
far together with the error. -/
def runRecords (env : Env) : Trace → ℕ → List NotificationRecord → Trace × ℕ × Option LambdaError
  | st, n, [] => (st, n, none)
  | st, n, r :: rs =>
    match processRecord env st n r with
    | (st2, n2, none) => runRecords env st2 n2 rs
    | (st2, n2, some e) => (st2, n2, some e)

/-- lambda_handler: runs the loop over all records of the event; if no
record raised, returns the status value done, otherwise the error
propagates to the invoking environment. -/
def lambda_handler (env : Env) (event : Event) : Trace × Except LambdaError Status :=
  match runRecords env Trace.empty 0 event.records with
  | (st, _, none) => (st, Except.ok ⟨"done"⟩)
  | (st, _, some e) => (st, Except.error e)

end ImageCompression

namespace ImageCompression

/-- The rounding helper never returns less than 1. -/
lemma one_le_round_aspect (q : ℚ) (key : ℤ → ℚ) : 1 ≤ round_aspect q key :=
  le_max_right _ _

/-- The rounding helper stays below any integer bound at least 1 that
bounds the exact value. -/
lemma round_aspect_le (q : ℚ) (key : ℤ → ℚ) (B : ℤ) (hB : 1 ≤ B) (h : q ≤ (B : ℚ)) :
    round_aspect q key ≤ B := by
  have hce : ⌈q⌉ ≤ B := Int.ceil_le.mpr h
  have hfl : ⌊q⌋ ≤ B := le_trans (Int.floor_le_ceil q) hce
  unfold round_aspect
  apply max_le _ hB
  split
  · exact hfl
  · exact hce

/-- The rounding helper lands within one of the exact positive value. -/
lemma round_aspect_close (q : ℚ) (key : ℤ → ℚ) (hq : 0 < q) :
    |(round_aspect q key : ℚ) - q| ≤ 1 := by
  have hceil : (0 : ℤ) < ⌈q⌉ := Int.ceil_pos.mpr hq
  have hle : q ≤ (⌈q⌉ : ℚ) := Int.le_ceil q
  have hlt : (⌈q⌉ : ℚ) < q + 1 := Int.ceil_lt_add_one q
  have hfle : (⌊q⌋ : ℚ) ≤ q := Int.floor_le q
  have hflt : q - 1 < (⌊q⌋ : ℚ) := Int.sub_one_lt_floor q
  unfold round_aspect
  split
  · rcases le_or_lt 1 ⌊q⌋ with hf1 | hf1
    · rw [max_eq_left hf1, abs_le]
      constructor <;> linarith
    · rw [max_eq_right (le_of_lt hf1), abs_le]
      have : q < 1 := by
        have := Int.floor_lt.mp (show ⌊q⌋ < (1 : ℤ) from hf1)
        exact_mod_cast this
      constructor <;> push_cast <;> linarith
  · have hceil1 : (1 : ℤ) ≤ ⌈q⌉ := by omega
    rw [max_eq_left hceil1, abs_le]
    constructor <;> linarith

/-- Unfolded form of the thumbnail size computation at the bounding box
1024 by 1024 used by the handler. -/
lemma thumbnailSize_big (w h : ℕ) :
    thumbnailSize (1024, 1024) w h =
      if w ≤ 1024 ∧ h ≤ 1024 then (w, h)
      else if (w : ℚ) / (h : ℚ) ≤ 1 then
        ((round_aspect (1024 * ((w : ℚ) / (h : ℚ)))
          (fun n => |(w : ℚ) / (h : ℚ) - (n : ℚ) / 1024|)).toNat, 1024)
      else
        (1024, (round_aspect (1024 / ((w : ℚ) / (h : ℚ)))
          (fun n => if n = 0 then 0 else |(w : ℚ) / (h : ℚ) - 1024 / (n : ℚ)|)).toNat) := by
  simp only [thumbnailSize, ge_iff_le]
  norm_num


/-- C1: for every decodable input image of dimensions w and h, the
transformer leaves the dimensions unchanged when both fit in 1024, and
otherwise the larger output dimension is exactly 1024 while each output
dimension is within one pixel of the exact aspect-preserving value. -/
theorem thumbnail_dims (w h : ℕ) (hw : 0 < w) (hh : 0 < h) :
    (max w h ≤ 1024 → thumbnailSize (1024, 1024) w h = (w, h)) ∧
    (1024 < max w h →
      max (thumbnailSize (1024, 1024) w h).1 (thumbnailSize (1024, 1024) w h).2 = 1024 ∧
      |((thumbnailSize (1024, 1024) w h).1 : ℚ) - 1024 * (w : ℚ) / (max w h : ℚ)| ≤ 1 ∧
      |((thumbnailSize (1024, 1024) w h).2 : ℚ) - 1024 * (h : ℚ) / (max w h : ℚ)| ≤ 1) := by
  constructor
  · intro hm
    rw [thumbnailSize_big, if_pos (max_le_iff.mp hm)]
  · intro hm
    have hcond : ¬(w ≤ 1024 ∧ h ≤ 1024) := fun ⟨a, b⟩ => absurd (max_le a b) (not_le.mpr hm)
    have hwq : (0 : ℚ) < w := by exact_mod_cast hw
    have hhq : (0 : ℚ) < h := by exact_mod_cast hh
    rw [thumbnailSize_big, if_neg hcond]
    by_cases hA : (w : ℚ) / (h : ℚ) ≤ 1
    · rw [if_pos hA]
      have hwh : w ≤ h := by exact_mod_cast (div_le_one hhq).mp hA
      have hmax : max w h = h := max_eq_right hwh
      have hA0 : 0 < (w : ℚ) / (h : ℚ) := div_pos hwq hhq
      have h1r := one_le_round_aspect (1024 * ((w : ℚ) / (h : ℚ)))
        (fun n => |(w : ℚ) / (h : ℚ) - (n : ℚ) / 1024|)
      have hr1024 := round_aspect_le (1024 * ((w : ℚ) / (h : ℚ)))
        (fun n => |(w : ℚ) / (h : ℚ) - (n : ℚ) / 1024|) 1024 (by norm_num) (by nlinarith)
      have hclose := round_aspect_close (1024 * ((w : ℚ) / (h : ℚ)))
        (fun n => |(w : ℚ) / (h : ℚ) - (n : ℚ) / 1024|) (by positivity)
      refine ⟨?_, ?_, ?_⟩
      · simpa using Nat.max_eq_right (Int.toNat_le.mpr hr1024)
      · rw [show max (w : ℚ) (h : ℚ) = (h : ℚ) from max_eq_right (by exact_mod_cast hwh)]
        have h0 : (0 : ℤ) ≤ round_aspect (1024 * ((w : ℚ) / (h : ℚ)))
            (fun n => |(w : ℚ) / (h : ℚ) - (n : ℚ) / 1024|) := le_trans zero_le_one h1r
        have hcast : ((round_aspect (1024 * ((w : ℚ) / (h : ℚ)))
            (fun n => |(w : ℚ) / (h : ℚ) - (n : ℚ) / 1024|)).toNat : ℚ) =
            ((round_aspect (1024 * ((w : ℚ) / (h : ℚ)))
            (fun n => |(w : ℚ) / (h : ℚ) - (n : ℚ) / 1024|) : ℤ) : ℚ) := by
          exact_mod_cast Int.toNat_of_nonneg h0
        simpa [hcast, mul_div_assoc] using hclose
      · rw [show max (w : ℚ) (h : ℚ) = (h : ℚ) from max_eq_right (by exact_mod_cast hwh)]
        have : 1024 * (h : ℚ) / (h : ℚ) = 1024 := by field_simp
        simp [this]
    · rw [if_neg hA]
      push_neg at hA
      have hwh : h ≤ w := by
        have := (one_lt_div hhq).mp hA
        exact_mod_cast this.le
      have hmax : max w h = w := max_eq_left hwh
      have hA1 : 1 ≤ (w : ℚ) / (h : ℚ) := hA.le
      have h1r := one_le_round_aspect (1024 / ((w : ℚ) / (h : ℚ)))
        (fun n => if n = 0 then 0 else |(w : ℚ) / (h : ℚ) - 1024 / (n : ℚ)|)
      have hr1024 := round_aspect_le (1024 / ((w : ℚ) / (h : ℚ)))
        (fun n => if n = 0 then 0 else |(w : ℚ) / (h : ℚ) - 1024 / (n : ℚ)|) 1024 (by norm_num)
        (by push_cast; exact div_le_self (by norm_num) hA1)
      have hclose := round_aspect_close (1024 / ((w : ℚ) / (h : ℚ)))
        (fun n => if n = 0 then 0 else |(w : ℚ) / (h : ℚ) - 1024 / (n : ℚ)|) (by positivity)
      refine ⟨?_, ?_, ?_⟩
      · simpa using Nat.max_eq_left (Int.toNat_le.mpr hr1024)
      · rw [show max (w : ℚ) (h : ℚ) = (w : ℚ) from max_eq_left (by exact_mod_cast hwh)]
        have : 1024 * (w : ℚ) / (w : ℚ) = 1024 := by field_simp
        simp [this]
      · rw [show max (w : ℚ) (h : ℚ) = (w : ℚ) from max_eq_left (by exact_mod_cast hwh)]
        have h0 : (0 : ℤ) ≤ round_aspect (1024 / ((w : ℚ) / (h : ℚ)))
            (fun n => if n = 0 then 0 else |(w : ℚ) / (h : ℚ) - 1024 / (n : ℚ)|) :=
          le_trans zero_le_one h1r
        have hcast : ((round_aspect (1024 / ((w : ℚ) / (h : ℚ)))
            (fun n => if n = 0 then 0 else |(w : ℚ) / (h : ℚ) - 1024 / (n : ℚ)|)).toNat : ℚ) =
            ((round_aspect (1024 / ((w : ℚ) / (h : ℚ)))
            (fun n => if n = 0 then 0 else |(w : ℚ) / (h : ℚ) - 1024 / (n : ℚ)|) : ℤ) : ℚ) := by
          exact_mod_cast Int.toNat_of_nonneg h0
        have hdd : 1024 / ((w : ℚ) / (h : ℚ)) = 1024 * (h : ℚ) / (w : ℚ) :=
          div_div_eq_mul_div 1024 (w : ℚ) (h : ℚ)
        show |((round_aspect (1024 / ((w : ℚ) / (h : ℚ)))
            (fun n => if n = 0 then 0 else |(w : ℚ) / (h : ℚ) - 1024 / (n : ℚ)|)).toNat : ℚ) -
            1024 * (h : ℚ) / (w : ℚ)| ≤ 1
        rw [hcast, hdd]
        rw [hdd] at hclose
        exact hclose

end ImageCompression

namespace ImageCompression

/-- The put_object call the loop body performs for a record, given the
fetched object and the decoded bitmap. -/
def producedPut (r : NotificationRecord) (obj : S3Object) (img : Img) : PutOp :=
  { bucket := DEST_BUCKET,
    key := "resized-" ++ basename r.key,
    body := savedOf (thumbnailImg (1024, 1024) img),
    contentType := obj.contentType }

/-- The metadata item the loop body inserts for a record, given the
fetched object, when the oracle index is n. -/
def producedItem (env : Env) (n : ℕ) (r : NotificationRecord) (obj : S3Object) : MetadataItem :=
  { imageId := env.freshId n,
    sourceBucket := r.bucket,
    sourceKey := r.key,
    destBucket := DEST_BUCKET,
    destKey := "resized-" ++ basename r.key,
    contentType := obj.contentType,
    sizeOriginal := obj.contentLength,
    resizedAt := env.now n }

/-- A record whose bucket is not the source bucket is skipped with no
side effect: the trace, the oracle index and the absence of an error are
all unchanged. -/
lemma processRecord_skip (env : Env) (st : Trace) (n : ℕ) (r : NotificationRecord)
    (hb : r.bucket ≠ SOURCE_BUCKET) : processRecord env st n r = (st, n, none) := by
  simp [processRecord, hb]

/-- Full characterisation of a successful pass through the loop body:
one get, one put and one insert are appended, in the shapes the source
constructs them. -/
lemma processRecord_success_eq (env : Env) (st : Trace) (n : ℕ) (r : NotificationRecord)
    (obj : S3Object) (img : Img)
    (hb : r.bucket = SOURCE_BUCKET)
    (hobj : env.getObject r.bucket r.key = Except.ok obj)
    (hdec : decode obj.body = some img)
    (hput : env.putOutcome DEST_BUCKET ("resized-" ++ basename r.key) = Except.ok ())
    (hins : env.insertOutcome (producedItem env n r obj) = Except.ok ()) :
    processRecord env st n r =
      ({ gets := st.gets ++ [(r.bucket, r.key)],
         puts := st.puts ++ [producedPut r obj img],
         inserts := st.inserts ++ [producedItem env n r obj] }, n + 1, none) := by
  obtain ⟨b, k⟩ := r
  simp only at hb
  subst hb
  simp only [producedItem] at hins
  simp [processRecord, producedPut, producedItem, hobj, hdec, hput, hins]

/-- A decode failure stops the item after the source read: the error is
the decode error and neither a put nor an insert is recorded. -/
lemma processRecord_decode_fail (env : Env) (st : Trace) (n : ℕ) (r : NotificationRecord)
    (obj : S3Object)
    (hb : r.bucket = SOURCE_BUCKET)
    (hobj : env.getObject r.bucket r.key = Except.ok obj)
    (hdec : decode obj.body = none) :
    processRecord env st n r =
      ({ st with gets := st.gets ++ [(r.bucket, r.key)] }, n, some LambdaError.decodeError) := by
  obtain ⟨b, k⟩ := r
  simp only at hb
  subst hb
  simp [processRecord, hobj, hdec]

/-- The insert list after one pass is either unchanged or extended by
exactly the one item the source constructs for this record. -/
lemma processRecord_inserts_cases (env : Env) (st : Trace) (n : ℕ) (r : NotificationRecord) :
    (processRecord env st n r).1.inserts = st.inserts ∨
    ∃ obj : S3Object,
      (processRecord env st n r).1.inserts = st.inserts ++ [producedItem env n r obj] := by
  obtain ⟨b, k⟩ := r
  by_cases hb : b = SOURCE_BUCKET
  · subst hb
    rcases hobj : env.getObject SOURCE_BUCKET k with e | obj
    · left; simp [processRecord, hobj]
    · rcases hdec : decode obj.body with _ | img
      · left; simp [processRecord, hobj, hdec]
      · rcases hput : env.putOutcome DEST_BUCKET ("resized-" ++ basename k) with e | u
        · left; simp [processRecord, hobj, hdec, hput]
        · rcases hins : env.insertOutcome
              (producedItem env n ⟨SOURCE_BUCKET, k⟩ obj) with e | u
          · left
            simp only [producedItem] at hins
            simp [processRecord, hobj, hdec, hput, hins]
          · right
            refine ⟨obj, ?_⟩
            simp only [producedItem] at hins
            simp [processRecord, producedItem, hobj, hdec, hput, hins]
  · left; simp [processRecord, hb]

/-- When one pass through the loop body raises no error, either the
record was skipped and the trace is untouched, or the pass appended one
put and one insert sharing the destination bucket and key. -/
lemma processRecord_ok_shape (env : Env) (st : Trace) (n : ℕ) (r : NotificationRecord)
    (hok : (processRecord env st n r).2.2 = none) :
    processRecord env st n r = (st, n, none) ∨
    ∃ obj img,
      processRecord env st n r =
        ({ gets := st.gets ++ [(r.bucket, r.key)],
           puts := st.puts ++ [producedPut r obj img],
           inserts := st.inserts ++ [producedItem env n r obj] }, n + 1, none) := by
  obtain ⟨b, k⟩ := r
  by_cases hb : b = SOURCE_BUCKET
  · subst hb
    rcases hobj : env.getObject SOURCE_BUCKET k with e | obj
    · exact absurd hok (by simp [processRecord, hobj])
    · rcases hdec : decode obj.body with _ | img
      · exact absurd hok (by simp [processRecord, hobj, hdec])
      · rcases hput : env.putOutcome DEST_BUCKET ("resized-" ++ basename k) with e | u
        · exact absurd hok (by simp [processRecord, hobj, hdec, hput])
        · rcases hins : env.insertOutcome
              (producedItem env n ⟨SOURCE_BUCKET, k⟩ obj) with e | u
          · refine absurd hok ?_
            simp only [producedItem] at hins
            simp [processRecord, hobj, hdec, hput, hins]
          · refine Or.inr ⟨obj, img, ?_⟩
            simp only [producedItem] at hins
            simp [processRecord, producedPut, producedItem, hobj, hdec, hput, hins]
  · left; simp [processRecord, hb]

end ImageCompression

namespace ImageCompression

/-- A pass that raises makes the loop stop: the remaining records are
never examined and the loop returns the failing pass verbatim. -/
lemma runRecords_fail_cons (env : Env) (st : Trace) (n : ℕ) (r : NotificationRecord)
    (rs : List NotificationRecord) (e : LambdaError)
    (hfail : (processRecord env st n r).2.2 = some e) :
    runRecords env st n (r :: rs) =
      ((processRecord env st n r).1, (processRecord env st n r).2.1, some e) := by
  rcases hp : processRecord env st n r with ⟨st2, n2, o⟩
  rw [hp] at hfail
  simp only at hfail
  subst hfail
  simp [runRecords, hp]

/-- A pass that raises no error makes the loop continue on the remaining
records from the updated trace and oracle index. -/
lemma runRecords_ok_cons (env : Env) (st : Trace) (n : ℕ) (r : NotificationRecord)
    (rs : List NotificationRecord)
    (hok : (processRecord env st n r).2.2 = none) :
    runRecords env st n (r :: rs) =
      runRecords env (processRecord env st n r).1 (processRecord env st n r).2.1 rs := by
  rcases hp : processRecord env st n r with ⟨st2, n2, o⟩
  rw [hp] at hok
  simp only at hok
  subst hok
  simp [runRecords, hp]

/-- Every insert in the trace left by the loop has the destination key
derived from its own source key, provided the inserts already in the
starting trace do. -/
lemma runRecords_destKey_inv (env : Env) :
    ∀ (rs : List NotificationRecord) (st : Trace) (n : ℕ),
      (∀ m ∈ st.inserts, m.destKey = "resized-" ++ basename m.sourceKey) →
      ∀ m ∈ (runRecords env st n rs).1.inserts,
        m.destKey = "resized-" ++ basename m.sourceKey := by
  intro rs
  induction rs with
  | nil => intro st n hinv; simpa [runRecords] using hinv
  | cons r rs ih =>
    intro st n hinv
    have hstep : ∀ m ∈ (processRecord env st n r).1.inserts,
        m.destKey = "resized-" ++ basename m.sourceKey := by
      rcases processRecord_inserts_cases env st n r with hsame | ⟨obj, happ⟩
      · rw [hsame]; exact hinv
      · rw [happ]
        intro m hm
        rcases List.mem_append.mp hm with hold | hnew
        · exact hinv m hold
        · rcases List.mem_singleton.mp hnew with rfl
          rfl
    rcases hp : processRecord env st n r with ⟨st2, n2, o⟩
    rw [hp] at hstep
    cases o with
    | none =>
      rw [runRecords_ok_cons env st n r rs (by rw [hp])]
      rw [hp]
      exact ih st2 n2 hstep
    | some e =>
      rw [runRecords_fail_cons env st n r rs e (by rw [hp]), hp]
      exact hstep

end ImageCompression

namespace ImageCompression

/-- Destination pair of a put operation. -/
def putDest (p : PutOp) : String × String := (p.bucket, p.key)

/-- Destination pair referenced by a metadata item. -/
def itemDest (m : MetadataItem) : String × String := (m.destBucket, m.destKey)

/-- On an error-free run of the loop, the destination writes and the
metadata inserts correspond one to one with equal destination pairs,
provided they did in the starting trace. -/
lemma runRecords_correspondence_inv (env : Env) :
    ∀ (rs : List NotificationRecord) (st : Trace) (n : ℕ),
      (runRecords env st n rs).2.2 = none →
      st.puts.map putDest = st.inserts.map itemDest →
      (runRecords env st n rs).1.puts.map putDest =
        (runRecords env st n rs).1.inserts.map itemDest := by
  intro rs
  induction rs with
  | nil => intro st n _ hinv; simpa [runRecords] using hinv
  | cons r rs ih =>
    intro st n hrun hinv
    rcases hp : processRecord env st n r with ⟨st2, n2, o⟩
    cases o with
    | none =>
      have hcons := runRecords_ok_cons env st n r rs (by rw [hp])
      rw [hcons, hp] at hrun ⊢
      refine ih st2 n2 hrun ?_
      rcases processRecord_ok_shape env st n r (by rw [hp]) with hsame | ⟨obj, img, happ⟩
      · rw [hp] at hsame
        simp only [Prod.mk.injEq] at hsame
        obtain ⟨h1, -⟩ := hsame
        rw [h1]
        exact hinv
      · rw [hp] at happ
        simp only [Prod.mk.injEq] at happ
        obtain ⟨h1, -⟩ := happ
        rw [h1]
        simp [hinv, producedPut, producedItem, putDest, itemDest]
    | some e =>
      rw [runRecords_fail_cons env st n r rs e (by rw [hp])] at hrun
      simp at hrun

end ImageCompression

deriving instance DecidableEq for Except

namespace ImageCompression

/-- The trace an invocation leaves is the trace of the loop over all
records, whether the invocation succeeds or fails. -/
lemma lambda_handler_fst (env : Env) (event : Event) :
    (lambda_handler env event).1 = (runRecords env Trace.empty 0 event.records).1 := by
  rcases hr : runRecords env Trace.empty 0 event.records with ⟨st, n, o⟩
  cases o <;> simp [lambda_handler, hr]

/-- Environment for concrete runs: every key holds a decodable 800 by 600
JPEG of 5000 bytes and every store call succeeds. -/
def okEnv : Env :=
  { getObject := fun _ _ => Except.ok ⟨Bytes.encoded "JPEG" 800 600, "image/jpeg", 5000⟩,
    putOutcome := fun _ _ => Except.ok (),
    insertOutcome := fun _ => Except.ok (),
    freshId := fun n => "uuid-" ++ toString n,
    now := fun n => "2026-10-12T00:00:00+" ++ toString n }

/-- Environment whose source store read always fails. -/
def readFailEnv : Env :=
  { okEnv with getObject := fun _ _ => Except.error LambdaError.storeReadError }

/-- Environment whose metadata insert always fails, after a successful
destination write. -/
def insertFailEnv : Env :=
  { okEnv with insertOutcome := fun _ => Except.error LambdaError.storeWriteError }

/-- Environment whose source store holds undecodable bytes. -/
def rawEnv : Env :=
  { okEnv with getObject := fun _ _ => Except.ok ⟨Bytes.raw [1, 2, 3], "image/jpeg", 3⟩ }

/-- A notification for a nested key in the configured source bucket. -/
def photoRecord : NotificationRecord := ⟨"source-image-azoz", "folder/sub/photo.jpg"⟩

/-- An event holding exactly the nested-key notification. -/
def photoEvent : Event := ⟨[photoRecord]⟩

/-- The metadata item the handler writes for photoRecord under okEnv. -/
def photoItem : MetadataItem :=
  { imageId := "uuid-0",
    sourceBucket := "source-image-azoz",
    sourceKey := "folder/sub/photo.jpg",
    destBucket := "resized-image-azoz",
    destKey := "resized-photo.jpg",
    contentType := "image/jpeg",
    sizeOriginal := 5000,
    resizedAt := "2026-10-12T00:00:00+0" }

/-- C2: every metadata record written by any invocation has destination
key equal to the string resized- followed by the basename of its source
key, nested path segments included. -/
theorem destKey_eq_resized_basename (env : Env) (event : Event) (m : MetadataItem)
    (hm : m ∈ (lambda_handler env event).1.inserts) :
    m.destKey = "resized-" ++ basename m.sourceKey := by
  rw [lambda_handler_fst] at hm
  refine runRecords_destKey_inv env event.records Trace.empty 0 ?_ m hm
  intro x hx
  simp [Trace.empty] at hx

/-- Witness for C2 at the nested key folder/sub/photo.jpg, whose
derivative key is resized-photo.jpg. -/
theorem destKey_eq_resized_basename_witness :
    photoItem.destKey = "resized-" ++ basename photoItem.sourceKey :=
  destKey_eq_resized_basename okEnv photoEvent photoItem (by decide)

end ImageCompression

namespace ImageCompression

/-- C3: a notification whose bucket differs from the configured source
bucket causes no store operation at all, and the loop continues with the
next notification from an unchanged state. -/
theorem foreign_bucket_skipped (env : Env) (st : Trace) (n : ℕ) (r : NotificationRecord)
    (rs : List NotificationRecord) (hb : r.bucket ≠ SOURCE_BUCKET) :
    processRecord env st n r = (st, n, none) ∧
    runRecords env st n (r :: rs) = runRecords env st n rs := by
  have h := processRecord_skip env st n r hb
  refine ⟨h, ?_⟩
  rw [runRecords_ok_cons env st n r rs (by rw [h]), h]

/-- A notification in a foreign bucket. -/
def foreignRecord : NotificationRecord := ⟨"some-other-bucket", "folder/sub/photo.jpg"⟩

/-- Witness for C3: the foreign-bucket notification is a true no-op and
the loop proceeds to the remaining records. -/
theorem foreign_bucket_skipped_witness :
    processRecord okEnv Trace.empty 0 foreignRecord = (Trace.empty, 0, none) ∧
    runRecords okEnv Trace.empty 0 (foreignRecord :: [photoRecord]) =
      runRecords okEnv Trace.empty 0 [photoRecord] :=
  foreign_bucket_skipped okEnv Trace.empty 0 foreignRecord [photoRecord] (by decide)

/-- C4: a successfully processed item appends exactly one metadata
record, whose size field is the reported content length, whose
destination fields are the bucket and key of the one destination write
performed, whose content type is the source content type, whose source
fields are the notification values, and whose identifier is the freshly
generated one. -/
theorem success_inserts_one_record (env : Env) (st : Trace) (n : ℕ) (r : NotificationRecord)
    (obj : S3Object) (img : Img)
    (hb : r.bucket = SOURCE_BUCKET)
    (hobj : env.getObject r.bucket r.key = Except.ok obj)
    (hdec : decode obj.body = some img)
    (hput : env.putOutcome DEST_BUCKET ("resized-" ++ basename r.key) = Except.ok ())
    (hins : env.insertOutcome (producedItem env n r obj) = Except.ok ()) :
    (processRecord env st n r).1.inserts = st.inserts ++ [producedItem env n r obj] ∧
    (processRecord env st n r).1.puts = st.puts ++ [producedPut r obj img] ∧
    (producedItem env n r obj).sizeOriginal = obj.contentLength ∧
    (producedItem env n r obj).destBucket = (producedPut r obj img).bucket ∧
    (producedItem env n r obj).destKey = (producedPut r obj img).key ∧
    (producedItem env n r obj).contentType = obj.contentType ∧
    (producedItem env n r obj).sourceBucket = r.bucket ∧
    (producedItem env n r obj).sourceKey = r.key ∧
    (producedItem env n r obj).imageId = env.freshId n := by
  have h := processRecord_success_eq env st n r obj img hb hobj hdec hput hins
  exact ⟨by rw [h], by rw [h], rfl, rfl, rfl, rfl, rfl, rfl, rfl⟩

/-- The source object okEnv serves for every key. -/
def okObject : S3Object := ⟨Bytes.encoded "JPEG" 800 600, "image/jpeg", 5000⟩

/-- The bitmap okObject decodes to. -/
def okImg : Img := ⟨800, 600, "JPEG"⟩

/-- Witness for C4 on the concrete nested-key run. -/
theorem success_inserts_one_record_witness :
    (processRecord okEnv Trace.empty 0 photoRecord).1.inserts =
      Trace.empty.inserts ++ [producedItem okEnv 0 photoRecord okObject] ∧
    (processRecord okEnv Trace.empty 0 photoRecord).1.puts =
      Trace.empty.puts ++ [producedPut photoRecord okObject okImg] ∧
    (producedItem okEnv 0 photoRecord okObject).sizeOriginal = okObject.contentLength ∧
    (producedItem okEnv 0 photoRecord okObject).destBucket =
      (producedPut photoRecord okObject okImg).bucket ∧
    (producedItem okEnv 0 photoRecord okObject).destKey =
      (producedPut photoRecord okObject okImg).key ∧
    (producedItem okEnv 0 photoRecord okObject).contentType = okObject.contentType ∧
    (producedItem okEnv 0 photoRecord okObject).sourceBucket = photoRecord.bucket ∧
    (producedItem okEnv 0 photoRecord okObject).sourceKey = photoRecord.key ∧
    (producedItem okEnv 0 photoRecord okObject).imageId = okEnv.freshId 0 :=
  success_inserts_one_record okEnv Trace.empty 0 photoRecord okObject okImg
    (by decide) (by decide) (by decide) (by decide) (by decide)

end ImageCompression

namespace ImageCompression

/-- C5: no failure is caught inside the handler: a failing item stops the
loop with the remaining records unexamined, and at invocation level the
error propagates verbatim, so no success status is returned. -/
theorem failure_aborts_batch (env : Env) (st : Trace) (n : ℕ) (r : NotificationRecord)
    (rs : List NotificationRecord) (e : LambdaError) (event : Event) (st2 : Trace) (n2 : ℕ)
    (e2 : LambdaError) :
    ((processRecord env st n r).2.2 = some e →
      runRecords env st n (r :: rs) =
        ((processRecord env st n r).1, (processRecord env st n r).2.1, some e)) ∧
    (runRecords env Trace.empty 0 event.records = (st2, n2, some e2) →
      lambda_handler env event = (st2, Except.error e2)) := by
  constructor
  · intro h
    exact runRecords_fail_cons env st n r rs e h
  · intro h
    simp [lambda_handler, h]

/-- Witness for C5: a failing source read on the first of two records
stops the batch there and the error is the invocation result. -/
theorem failure_aborts_batch_witness :
    (runRecords readFailEnv Trace.empty 0 (photoRecord :: [photoRecord]) =
      ((processRecord readFailEnv Trace.empty 0 photoRecord).1,
       (processRecord readFailEnv Trace.empty 0 photoRecord).2.1,
       some LambdaError.storeReadError)) ∧
    lambda_handler readFailEnv photoEvent =
      (Trace.empty, Except.error LambdaError.storeReadError) :=
  ⟨(failure_aborts_batch readFailEnv Trace.empty 0 photoRecord [photoRecord]
      LambdaError.storeReadError photoEvent Trace.empty 0 LambdaError.storeReadError).1
      (by decide),
   (failure_aborts_batch readFailEnv Trace.empty 0 photoRecord [photoRecord]
      LambdaError.storeReadError photoEvent Trace.empty 0 LambdaError.storeReadError).2
      (by decide)⟩

/-- C6: undecodable source bytes fail the item with the decode error
after the source read but before any destination write and before any
metadata insert. -/
theorem undecodable_fails_before_writes (env : Env) (st : Trace) (n : ℕ)
    (r : NotificationRecord) (obj : S3Object)
    (hb : r.bucket = SOURCE_BUCKET)
    (hobj : env.getObject r.bucket r.key = Except.ok obj)
    (hdec : decode obj.body = none) :
    processRecord env st n r =
      ({ st with gets := st.gets ++ [(r.bucket, r.key)] }, n, some LambdaError.decodeError) ∧
    (processRecord env st n r).1.puts = st.puts ∧
    (processRecord env st n r).1.inserts = st.inserts := by
  have h := processRecord_decode_fail env st n r obj hb hobj hdec
  exact ⟨h, by rw [h], by rw [h]⟩

/-- Witness for C6 on undecodable bytes under the configured source
bucket. -/
theorem undecodable_fails_before_writes_witness :
    processRecord rawEnv Trace.empty 0 photoRecord =
      ({ Trace.empty with
          gets := Trace.empty.gets ++ [(photoRecord.bucket, photoRecord.key)] }, 0,
        some LambdaError.decodeError) ∧
    (processRecord rawEnv Trace.empty 0 photoRecord).1.puts = Trace.empty.puts ∧
    (processRecord rawEnv Trace.empty 0 photoRecord).1.inserts = Trace.empty.inserts :=
  undecodable_fails_before_writes rawEnv Trace.empty 0 photoRecord
    ⟨Bytes.raw [1, 2, 3], "image/jpeg", 3⟩ (by decide) (by decide) (by decide)

end ImageCompression

namespace ImageCompression

/-- C7 counterexample: when the metadata insert fails after the
destination write succeeded, the invocation leaves a derivative write
with no metadata record referencing it, so the claimed correspondence
fails in exactly the insert-failure case the claim includes. -/
theorem derivative_without_record_counterexample :
    ¬ (∀ p ∈ (lambda_handler insertFailEnv photoEvent).1.puts,
        ∃ m ∈ (lambda_handler insertFailEnv photoEvent).1.inserts,
          m.destBucket = p.bucket ∧ m.destKey = p.key) := by
  decide

/-- C7 as amended: on every invocation that completes without failure,
the destination writes and the metadata records correspond one to one,
in order, with equal destination bucket and key. -/
theorem derivative_record_correspondence (env : Env) (event : Event) (s : Status)
    (h : (lambda_handler env event).2 = Except.ok s) :
    (lambda_handler env event).1.puts.map putDest =
      (lambda_handler env event).1.inserts.map itemDest := by
  rw [lambda_handler_fst]
  rcases hr : runRecords env Trace.empty 0 event.records with ⟨st, n, o⟩
  cases o with
  | none =>
    have hc := runRecords_correspondence_inv env event.records Trace.empty 0
      (by rw [hr]) rfl
    rw [hr] at hc
    exact hc
  | some e =>
    simp [lambda_handler, hr] at h

/-- Witness for the amended C7 on a successful run. -/
theorem derivative_record_correspondence_witness :
    (lambda_handler okEnv photoEvent).1.puts.map putDest =
      (lambda_handler okEnv photoEvent).1.inserts.map itemDest :=
  derivative_record_correspondence okEnv photoEvent ⟨"done"⟩ (by decide)

/-- C8: the transformer re-encodes in the format detected on decode with
optimize true and quality 70, and the destination write carries the
source content type. -/
theorem reencode_format_and_params (env : Env) (st : Trace) (n : ℕ) (r : NotificationRecord)
    (obj : S3Object) (img : Img)
    (hb : r.bucket = SOURCE_BUCKET)
    (hobj : env.getObject r.bucket r.key = Except.ok obj)
    (hdec : decode obj.body = some img)
    (hput : env.putOutcome DEST_BUCKET ("resized-" ++ basename r.key) = Except.ok ())
    (hins : env.insertOutcome (producedItem env n r obj) = Except.ok ()) :
    (processRecord env st n r).1.puts = st.puts ++ [producedPut r obj img] ∧
    (producedPut r obj img).body.format = img.format ∧
    (producedPut r obj img).body.optimize = true ∧
    (producedPut r obj img).body.quality = 70 ∧
    (producedPut r obj img).contentType = obj.contentType := by
  have h := processRecord_success_eq env st n r obj img hb hobj hdec hput hins
  exact ⟨by rw [h], rfl, rfl, rfl, rfl⟩

/-- Witness for C8 on the concrete nested-key run. -/
theorem reencode_format_and_params_witness :
    (processRecord okEnv Trace.empty 0 photoRecord).1.puts =
      Trace.empty.puts ++ [producedPut photoRecord okObject okImg] ∧
    (producedPut photoRecord okObject okImg).body.format = okImg.format ∧
    (producedPut photoRecord okObject okImg).body.optimize = true ∧
    (producedPut photoRecord okObject okImg).body.quality = 70 ∧
    (producedPut photoRecord okObject okImg).contentType = okObject.contentType :=
  reencode_format_and_params okEnv Trace.empty 0 photoRecord okObject okImg
    (by decide) (by decide) (by decide) (by decide) (by decide)

/-- C9: an invocation returns the status value done exactly when the loop
over all records raised no error, and the trace it returns is the trace
of the full loop, so the status is produced only after every record was
processed. -/
theorem batch_done_status (env : Env) (event : Event) (s : Status) :
    ((lambda_handler env event).2 = Except.ok s →
      s = ⟨"done"⟩ ∧ (runRecords env Trace.empty 0 event.records).2.2 = none) ∧
    ((runRecords env Trace.empty 0 event.records).2.2 = none →
      lambda_handler env event =
        ((runRecords env Trace.empty 0 event.records).1, Except.ok ⟨"done"⟩)) := by
  rcases hr : runRecords env Trace.empty 0 event.records with ⟨st, n, o⟩
  cases o with
  | none =>
    constructor
    · intro h
      simp [lambda_handler, hr] at h
      exact ⟨h.symm, rfl⟩
    · intro _
      simp [lambda_handler, hr]
  | some e =>
    constructor
    · intro h
      simp [lambda_handler, hr] at h
    · intro h
      simp at h

/-- Witness for C9 on a successful run. -/
theorem batch_done_status_witness :
    ⟨"done"⟩ = (⟨"done"⟩ : Status) ∧
      (runRecords okEnv Trace.empty 0 photoEvent.records).2.2 = none ∧
    lambda_handler okEnv photoEvent =
      ((runRecords okEnv Trace.empty 0 photoEvent.records).1, Except.ok ⟨"done"⟩) :=
  have hpair := (batch_done_status okEnv photoEvent ⟨"done"⟩).1 (by decide)
  ⟨hpair.1, hpair.2,
    (batch_done_status okEnv photoEvent ⟨"done"⟩).2 (by decide)⟩

/-- C10: an event with an empty record list performs no store operation
and returns the status done. -/
theorem empty_batch_no_op (env : Env) :
    lambda_handler env ⟨[]⟩ = (⟨[], [], []⟩, Except.ok ⟨"done"⟩) := rfl

end ImageCompression

namespace ImageCompression

/-- Witness for C1 at a 2048 by 1000 image, which exceeds the bounding
box. -/
theorem thumbnail_dims_witness :
    0 < 2048 ∧ 0 < 1000 ∧
    ((max 2048 1000 ≤ 1024 → thumbnailSize (1024, 1024) 2048 1000 = (2048, 1000)) ∧
     (1024 < max 2048 1000 →
       max (thumbnailSize (1024, 1024) 2048 1000).1
         (thumbnailSize (1024, 1024) 2048 1000).2 = 1024 ∧
       |((thumbnailSize (1024, 1024) 2048 1000).1 : ℚ) -
         1024 * ((2048 : ℕ) : ℚ) / max ((2048 : ℕ) : ℚ) ((1000 : ℕ) : ℚ)| ≤ 1 ∧
       |((thumbnailSize (1024, 1024) 2048 1000).2 : ℚ) -
         1024 * ((1000 : ℕ) : ℚ) / max ((2048 : ℕ) : ℚ) ((1000 : ℕ) : ℚ)| ≤ 1)) :=
  ⟨by decide, by decide, thumbnail_dims 2048 1000 (by decide) (by decide)⟩

end ImageCompression
